import Mathlib

/-!
Shallow embedding of `src/backend/services/embedding-service.py`.

Float samples and float arithmetic are modelled exactly: sample values are
rationals (every IEEE float is a rational) and arithmetic is exact; the only
irrational operations of the program, `np.sqrt` (frame energies, vector norms)
and `10 ** (db/20)` (normalizer target), are modelled over the reals with
`Real.sqrt` and real exponentiation.  Integer arithmetic (`int(...)`,
Python `//`) is modelled with `Nat`/`Int` floor operations.
-/

namespace EmbeddingService

/-- `AudioPreprocessingConfig` (lines 57-78).  Float fields as rationals. -/
structure AudioPreprocessingConfig where
  bandpassLowHz : ℚ
  bandpassHighHz : ℚ
  filterOrder : ℕ
  targetDb : ℚ
  normalizeAudio : Bool
  vadEnabled : Bool
  vadEnergyThreshold : ℚ
  vadFrameMs : ℕ
  vadMinSpeechMs : ℕ
  vadPaddingMs : ℕ
  preEmphasisEnabled : Bool
  preEmphasisCoef : ℚ
deriving DecidableEq

/-- `PREPROCESSING_CONFIG` defaults (lines 61-78, 81). -/
def defaultConfig : AudioPreprocessingConfig where
  bandpassLowHz := 80
  bandpassHighHz := 7500
  filterOrder := 5
  targetDb := -3
  normalizeAudio := true
  vadEnabled := true
  vadEnergyThreshold := 1/100
  vadFrameMs := 30
  vadMinSpeechMs := 250
  vadPaddingMs := 100
  preEmphasisEnabled := true
  preEmphasisCoef := 97/100

/-! ## Bandpass cutoff clamping (`_apply_bandpass_filter`, lines 166-172) -/

/-- `nyquist = sample_rate / 2` (line 166). -/
def nyquist (sampleRate : ℚ) : ℚ := sampleRate / 2

/-- `low = max(0.001, min(low, 0.99))` where `low = bandpass_low_hz / nyquist`
(lines 167, 171). -/
def clampedLow (cfg : AudioPreprocessingConfig) (sampleRate : ℚ) : ℚ :=
  max (1/1000) (min (cfg.bandpassLowHz / nyquist sampleRate) (99/100))

/-- `high = max(low + 0.01, min(high, 0.99))` where `high = bandpass_high_hz / nyquist`
(lines 168, 172). -/
def clampedHigh (cfg : AudioPreprocessingConfig) (sampleRate : ℚ) : ℚ :=
  max (clampedLow cfg sampleRate + 1/100) (min (cfg.bandpassHighHz / nyquist sampleRate) (99/100))

/-! ## Pre-emphasis (`_apply_pre_emphasis`, lines 191-201) -/

/-- `emphasized = cat([waveform[:, :1], waveform[:, 1:] - coef * waveform[:, :-1]])`
(lines 197-200); the channel dimension (always 1 here) is dropped. -/
def applyPreEmphasis (coef : ℚ) (w : List ℚ) : List ℚ :=
  match w with
  | [] => []
  | x :: xs => x :: List.zipWith (fun cur prev => cur - coef * prev) xs (x :: xs)

/-! ## Crossfade splicing (`_crossfade_segments`, lines 300-324) -/

/-- `np.linspace(a, b, n)`: `n` evenly spaced values from `a` to `b` inclusive. -/
def linspace (a b : ℚ) (n : ℕ) : List ℚ :=
  (List.range n).map (fun k : ℕ => a + (b - a) * (k : ℚ) / ((n : ℚ) - 1))

/-- One step of the fold at lines 309-322: crossfade `segment` onto `result`.
When both are at least `cf` long, the last `cf` samples of `result` are faded
out, the first `cf` of `segment` faded in, the two overlaps summed, and the
rest of `segment` appended; otherwise plain concatenation. -/
def crossfadePair (cf : ℕ) (result segment : List ℚ) : List ℚ :=
  if cf ≤ result.length ∧ cf ≤ segment.length then
    result.take (result.length - cf) ++
      (List.zipWith (· + ·)
        (List.zipWith (· * ·) (result.drop (result.length - cf)) (linspace 1 0 cf))
        (List.zipWith (· * ·) (segment.take cf) (linspace 0 1 cf))) ++
      segment.drop cf
  else result ++ segment

/-- `_crossfade_segments(segments, crossfade_samples)` (lines 300-324):
empty list gives an empty array, a single segment is returned as is, otherwise
the remaining segments are folded onto the first with `crossfadePair`. -/
def crossfadeSegments (segments : List (List ℚ)) (cf : ℕ) : List ℚ :=
  match segments with
  | [] => []
  | s :: rest => rest.foldl (crossfadePair cf) s

/-! ## Voice activity detection (`_apply_vad`, lines 203-298) -/

/-- `frame_size = int(sample_rate * vad_frame_ms / 1000)` (line 211);
the product is an exact integer, so `int(...)` is Nat division. -/
def vadFrameSize (rate : ℕ) (cfg : AudioPreprocessingConfig) : ℕ :=
  rate * cfg.vadFrameMs / 1000

/-- `hop_size = frame_size // 2` (line 212). -/
def vadHopSize (rate : ℕ) (cfg : AudioPreprocessingConfig) : ℕ :=
  vadFrameSize rate cfg / 2

/-- `min_speech_frames = int(vad_min_speech_ms / vad_frame_ms * 2)` (line 213);
`int()` truncates, and the value is nonnegative, so it is a floor. -/
def vadMinSpeechFrames (cfg : AudioPreprocessingConfig) : ℕ :=
  (Int.floor ((cfg.vadMinSpeechMs : ℚ) / (cfg.vadFrameMs : ℚ) * 2)).toNat

/-- `padding_frames = int(vad_padding_ms / vad_frame_ms * 2)` (line 214). -/
def vadPaddingFrames (cfg : AudioPreprocessingConfig) : ℕ :=
  (Int.floor ((cfg.vadPaddingMs : ℚ) / (cfg.vadFrameMs : ℚ) * 2)).toNat

/-- `num_frames = max(1, (len(audio_np) - frame_size) // hop_size + 1)` (line 217).
Python `//` is floor division; for the positive divisors used here that is
`Int.ediv`. -/
def vadNumFrames (len frame hop : ℕ) : ℕ :=
  (max 1 (((len : ℤ) - (frame : ℤ)) / (hop : ℤ) + 1)).toNat

/-- Body of the energy loop (lines 220-225) for frame `i`, before the square
root: the mean square of the frame, or `0` if the frame would run past the end
(`end <= len(audio_np)` guard at line 223). -/
def frameMeanSq (w : List ℚ) (frame hop i : ℕ) : ℚ :=
  if i * hop + frame ≤ w.length then
    (((w.drop (i * hop)).take frame).map (fun x => x * x)).sum / (frame : ℚ)
  else 0

/-- Mean squares of all `num_frames` frames (lines 217-225). -/
def vadMeanSqs (w : List ℚ) (rate : ℕ) (cfg : AudioPreprocessingConfig) : List ℚ :=
  (List.range (vadNumFrames w.length (vadFrameSize rate cfg) (vadHopSize rate cfg))).map
    (frameMeanSq w (vadFrameSize rate cfg) (vadHopSize rate cfg))

/-- `energies[i] = np.sqrt(np.mean(frame ** 2))` (line 225). -/
noncomputable def vadEnergies (w : List ℚ) (rate : ℕ) (cfg : AudioPreprocessingConfig) :
    List ℝ :=
  (vadMeanSqs w rate cfg).map (fun q : ℚ => Real.sqrt (q : ℝ))

/-- `np.max(energies)` (line 228); the energies are square roots, hence
nonnegative, so the fold with base `0` agrees with numpy's max over this
nonempty list. -/
noncomputable def vadMaxEnergy (w : List ℚ) (rate : ℕ) (cfg : AudioPreprocessingConfig) :
    ℝ :=
  (vadEnergies w rate cfg).foldr max 0

/-- `max_energy = np.max(energies) if np.max(energies) > 0 else 1.0` (line 228). -/
noncomputable def vadNormDivisor (w : List ℚ) (rate : ℕ) (cfg : AudioPreprocessingConfig) :
    ℝ :=
  if 0 < vadMaxEnergy w rate cfg then vadMaxEnergy w rate cfg else 1

/-- `normalized_energies = energies / max_energy` (line 229). -/
noncomputable def vadNormalized (w : List ℚ) (rate : ℕ) (cfg : AudioPreprocessingConfig) :
    List ℝ :=
  (vadEnergies w rate cfg).map (fun e => e / vadNormDivisor w rate cfg)

/-- `uniform_filter1d(xs, size=3)` (line 232): length-3 centred moving average
with scipy's default boundary mode, which reflects the edge sample
(`xs[-1] = xs[0]` and `xs[n] = xs[n-1]`). -/
noncomputable def smooth3 (l : List ℝ) : List ℝ :=
  (List.range l.length).map (fun i =>
    (l.getD (i - 1) 0 + l.getD i 0 + l.getD (min (i + 1) (l.length - 1)) 0) / 3)

/-- `speech_frames = smoothed_energies > vad_energy_threshold` (line 235). -/
noncomputable def vadSpeechFlags (w : List ℚ) (rate : ℕ) (cfg : AudioPreprocessingConfig) :
    List Bool :=
  (smooth3 (vadNormalized w rate cfg)).map
    (fun e => if ((cfg.vadEnergyThreshold : ℚ) : ℝ) < e then true else false)

/-- The scan over `speech_frames` (lines 238-260): track `in_speech` and the
current run start; when a run closes with at least `minF` frames, record it
padded by `padF` on both sides (clamped to the index range, which Nat
subtraction and `min total` provide); a run still open at the end is recorded
with the list length as its end. -/
def scanRuns (minF padF total : ℕ) :
    List Bool → ℕ → Bool → ℕ → List (ℕ × ℕ) → List (ℕ × ℕ)
  | [], _, inSpeech, segStart, acc =>
    if inSpeech && decide (minF ≤ total - segStart) then
      acc ++ [(segStart - padF, total)]
    else acc
  | b :: rest, i, inSpeech, segStart, acc =>
    if b && !inSpeech then
      scanRuns minF padF total rest (i + 1) true i acc
    else if !b && inSpeech then
      scanRuns minF padF total rest (i + 1) false segStart
        (if minF ≤ i - segStart then acc ++ [(segStart - padF, min total (i + padF))]
         else acc)
    else
      scanRuns minF padF total rest (i + 1) inSpeech segStart acc

/-- `speech_segments` as accumulated by the scan (lines 238-260). -/
noncomputable def vadScanSegments (w : List ℚ) (rate : ℕ) (cfg : AudioPreprocessingConfig) :
    List (ℕ × ℕ) :=
  scanRuns (vadMinSpeechFrames cfg) (vadPaddingFrames cfg)
    (vadSpeechFlags w rate cfg).length (vadSpeechFlags w rate cfg) 0 false 0 []

/-- Lexicographic order used by Python's `sorted` on pairs. -/
def segLE (a b : ℕ × ℕ) : Bool :=
  a.1 < b.1 || (a.1 = b.1 && a.2 ≤ b.2)

/-- Insertion into a sorted list (for `sorted(speech_segments)`, line 273). -/
def insertSorted (s : ℕ × ℕ) : List (ℕ × ℕ) → List (ℕ × ℕ)
  | [] => [s]
  | t :: rest => if segLE s t then s :: t :: rest else t :: insertSorted s rest

/-- `sorted(speech_segments)` (line 273). -/
def sortSegs (l : List (ℕ × ℕ)) : List (ℕ × ℕ) :=
  l.foldr insertSorted []

/-- One step of the merge loop (lines 272-277): a segment whose start is at or
before the end of the last merged segment is unioned into it. -/
def mergeInto (acc : List (ℕ × ℕ)) (seg : ℕ × ℕ) : List (ℕ × ℕ) :=
  match acc.getLast? with
  | some last =>
    if seg.1 ≤ last.2 then acc.dropLast ++ [(last.1, max last.2 seg.2)]
    else acc ++ [seg]
  | none => [seg]

/-- `merged_segments` (lines 272-277). -/
noncomputable def vadMergedSegments (w : List ℚ) (rate : ℕ) (cfg : AudioPreprocessingConfig) :
    List (ℕ × ℕ) :=
  (sortSegs (vadScanSegments w rate cfg)).foldl mergeInto []

/-- Sample extraction of one merged segment (lines 281-284):
`audio_np[start_frame * hop : min(end_frame * hop + frame, len(audio_np))]`. -/
def extractSegment (w : List ℚ) (hop frame : ℕ) (seg : ℕ × ℕ) : List ℚ :=
  (w.drop (seg.1 * hop)).take (min (seg.2 * hop + frame) w.length - seg.1 * hop)

/-- `speech_audio` (lines 280-284). -/
noncomputable def vadSpeechAudio (w : List ℚ) (rate : ℕ) (cfg : AudioPreprocessingConfig) :
    List (List ℚ) :=
  (vadMergedSegments w rate cfg).map
    (extractSegment w (vadHopSize rate cfg) (vadFrameSize rate cfg))

/-- `combined` (lines 287-290): crossfade when more than one extracted segment,
otherwise the single segment, falling back to the input if there is none. -/
noncomputable def vadCombined (w : List ℚ) (rate : ℕ) (cfg : AudioPreprocessingConfig) :
    List ℚ :=
  if 1 < (vadSpeechAudio w rate cfg).length then
    crossfadeSegments (vadSpeechAudio w rate cfg) 160
  else (vadSpeechAudio w rate cfg).headD w

/-- The `vad_stats` dictionary (lines 265-269 and 292-296). -/
structure VadStats where
  speechSegments : ℕ
  speechRat : ℚ
  keptOriginal : Bool
deriving DecidableEq

/-- Python `round(x, 3)` (line 294), modelled as round-to-nearest with ties
half-up; no value in this development sits at a tie, where Python rounds
half-to-even. -/
def round3 (x : ℚ) : ℚ := ((round (x * 1000) : ℤ) : ℚ) / 1000

/-- `_apply_vad` (lines 203-298): if the scan found no speech segment, fail
open and return the input with `speech_segments=0, speech_ratio=0.0,
kept_original=True` (lines 262-269); otherwise return the spliced speech audio
with segment count and kept-to-original ratio (lines 280-298). -/
noncomputable def applyVad (w : List ℚ) (rate : ℕ) (cfg : AudioPreprocessingConfig) :
    List ℚ × VadStats :=
  if vadScanSegments w rate cfg = [] then (w, ⟨0, 0, true⟩)
  else
    (vadCombined w rate cfg,
      ⟨(vadMergedSegments w rate cfg).length,
        round3 (((vadCombined w rate cfg).length : ℚ) / (w.length : ℚ)),
        false⟩)

/-! ## Amplitude normalization (`_normalize_amplitude`, lines 326-343) -/

/-- `peak = torch.max(torch.abs(audio))` (line 334); the peak of an absolute
value list is its fold with `max` from `0`, which agrees with torch's max on
the nonempty waveforms the pipeline feeds it (absolute values are
nonnegative). -/
noncomputable def peakAmplitude (w : List ℝ) : ℝ :=
  (w.map (fun x => |x|)).foldr max 0

/-- `target_amplitude = 10 ** (target_db / 20)` (line 338). -/
noncomputable def targetAmplitude (db : ℝ) : ℝ :=
  (10 : ℝ) ^ (db / 20)

/-- `_normalize_amplitude` (lines 326-343): if the peak is positive, scale
every sample by `target_amplitude / peak`; otherwise return the waveform
unchanged. -/
noncomputable def normalizeAmplitude (db : ℝ) (w : List ℝ) : List ℝ :=
  if 0 < peakAmplitude w then
    w.map (fun x => x * (targetAmplitude db / peakAmplitude w))
  else w

/-! ## Cosine similarity (`compute_similarity`, lines 567-595) -/

/-- `np.dot(e1, e2)` (line 583). -/
def dotList (a b : List ℝ) : ℝ :=
  (List.zipWith (· * ·) a b).sum

/-- `np.linalg.norm(e)` (lines 584-585): the Euclidean norm. -/
noncomputable def normList (a : List ℝ) : ℝ :=
  Real.sqrt (dotList a a)

/-- `compute_similarity` (lines 567-595): `0.0` when either norm is zero,
otherwise the cosine `dot / (norm1 * norm2)`. -/
noncomputable def computeSimilarity (a b : List ℝ) : ℝ :=
  if normList a = 0 ∨ normList b = 0 then 0
  else dotList a b / (normList a * normList b)

/-! ## Centroid (`compute_centroid_endpoint`, lines 863-875) -/

/-- Columnwise sum of a rectangular list of vectors (the reduction inside
`np.mean(embeddings_array, axis=0)`, line 868). -/
def vecSum : List (List ℚ) → List ℚ
  | [] => []
  | v :: rest => rest.foldl (List.zipWith (· + ·)) v

/-- `centroid = np.mean(embeddings_array, axis=0)` (line 868): elementwise
mean over the vectors. -/
def computeCentroid (vs : List (List ℚ)) : List ℚ :=
  (vecSum vs).map (fun x => x / (vs.length : ℚ))

/-! ## Pipeline orchestrator (`AudioPreprocessor.process`, lines 102-155) -/

/-- Stage tags appended to `preprocessing_applied` (the source uses strings). -/
inductive StageTag
  | resample16k
  | monoConversion
  | bandpass
  | preEmphasis
  | vad
  | amplitudeNormalization
deriving DecidableEq

/-- The single error kind observable on this path: the zero-phase filter
(scipy `filtfilt`) validates its input length against
`padlen = 3 * max(len(a), len(b))` and raises `ValueError` when the signal is
not longer than that; a Butterworth bandpass of order `n` has `2n + 1`
coefficients. The spec classifies this propagated failure on malformed
(empty) input as a validation failure. -/
inductive PipelineError
  | validation
deriving DecidableEq

/-- `filtfilt`'s default `padlen` for an order-`n` Butterworth bandpass. -/
def filtfiltPadlen (order : ℕ) : ℕ := 3 * (2 * order + 1)

/-- The metadata dictionary assembled by `process` (lines 113-153), with the
fields the claims touch; the applied-stage strings are represented by
`StageTag`s. -/
structure ProcessMeta where
  originalDurationS : ℚ
  originalSampleRate : ℕ
  preprocessingApplied : List StageTag
  vadStats : Option VadStats
  finalDurationS : ℚ
  durationReductionPct : ℚ

/-- Python `round(x, 1)` (lines 151-153), same convention as `round3`. -/
def round1 (x : ℚ) : ℚ := ((round (x * 10) : ℤ) : ℚ) / 10

/-- `AudioPreprocessor.process` (lines 102-155).  The numeric actions of the
two external routines are passed in as functions: `resample` for
`torchaudio.functional.resample` (line 121) and `bp` for the designed
Butterworth filter applied with `scipy.signal.filtfilt` (lines 177-189);
`filtfilt`'s input-length validation (see `filtfiltPadlen`) is part of the
model, since it is what a run hits on malformed input.  The waveform is
single-channel throughout (`waveform.shape[0] == 1`), so the mono-conversion
branch at lines 126-128 does not fire and is omitted.  Stages in fixed order:
resample to 16 kHz, bandpass, optional pre-emphasis, optional VAD, optional
amplitude normalization. -/
noncomputable def process (bp : List ℚ → List ℚ) (resample : List ℚ → ℕ → List ℚ)
    (cfg : AudioPreprocessingConfig) (w : List ℚ) (sampleRate : ℕ) :
    Except PipelineError (List ℝ × ℕ × ProcessMeta) :=
  let origDur : ℚ := (w.length : ℚ) / (sampleRate : ℚ)
  let w1 : List ℚ := if sampleRate ≠ 16000 then resample w sampleRate else w
  let rate1 : ℕ := 16000
  let tags1 : List StageTag := if sampleRate ≠ 16000 then [.resample16k] else []
  if w1.length ≤ filtfiltPadlen cfg.filterOrder then .error .validation
  else
    let w2 := bp w1
    let w3 := if cfg.preEmphasisEnabled then applyPreEmphasis cfg.preEmphasisCoef w2 else w2
    let vr := applyVad w3 rate1 cfg
    let w4 := if cfg.vadEnabled then vr.1 else w3
    let stats : Option VadStats := if cfg.vadEnabled then some vr.2 else none
    let w5 : List ℝ :=
      if cfg.normalizeAudio then normalizeAmplitude ((cfg.targetDb : ℚ) : ℝ) (w4.map (fun x : ℚ => (x : ℝ)))
      else w4.map (fun x : ℚ => (x : ℝ))
    let finalDur : ℚ := (w5.length : ℚ) / (rate1 : ℚ)
    let tags : List StageTag :=
      tags1 ++ [.bandpass] ++ (if cfg.preEmphasisEnabled then [.preEmphasis] else []) ++
        (if cfg.vadEnabled then [.vad] else []) ++
        (if cfg.normalizeAudio then [.amplitudeNormalization] else [])
    .ok (w5, rate1,
      ⟨origDur, sampleRate, tags, stats, finalDur, round1 ((1 - finalDur / origDur) * 100)⟩)

/-! ## Concrete input for the speech-ratio counterexample -/

/-- A configuration reachable through the `/preprocessing-config` endpoint:
default 30 ms frames, a 30 ms minimum speech length (2 frames) and no
padding. -/
def cexConfig : AudioPreprocessingConfig :=
  { defaultConfig with vadMinSpeechMs := 30, vadPaddingMs := 0 }

/-- A 120 ms waveform at 16 kHz: 30 ms at full scale, 15 ms at amplitude
1/100, 30 ms of silence, 15 ms at 1/100, 30 ms at full scale.  Its two speech
runs are separated by one non-speech frame, so the two extracted sample
ranges overlap by 240 samples while the crossfade removes only 160. -/
def cexWave : List ℚ :=
  List.replicate 480 1 ++ List.replicate 240 (1/100) ++ List.replicate 480 0 ++
    List.replicate 240 (1/100) ++ List.replicate 480 1

/-! ## Helper lemmas -/

theorem linspace_length (a b : ℚ) (n : ℕ) : (linspace a b n).length = n := by
  unfold linspace
  rw [List.length_map, List.length_range]

theorem crossfadePair_length_of_le (cf : ℕ) (a b : List ℚ)
    (ha : cf ≤ a.length) (hb : cf ≤ b.length) :
    (crossfadePair cf a b).length = a.length + b.length - cf := by
  unfold crossfadePair
  rw [if_pos ⟨ha, hb⟩]
  simp only [List.length_append, List.length_zipWith, linspace_length, List.length_take,
    List.length_drop]
  omega

theorem crossfadePair_length_of_short (cf : ℕ) (a b : List ℚ)
    (h : a.length < cf ∨ b.length < cf) :
    (crossfadePair cf a b).length = a.length + b.length := by
  unfold crossfadePair
  rw [if_neg (by omega)]
  simp

/-! ## Claims -/

/-- C2, counterexample: at `sample_rate = 100` with the default cutoffs, the
clamped low cutoff is `0.99`, so the clamped high cutoff is
`max(0.99 + 0.01, min(150, 0.99)) = 1.0`, violating `high ≤ 0.99`. -/
theorem bandpass_clamp_cex :
    (0 : ℚ) < 100 ∧ clampedHigh defaultConfig 100 = 1 ∧
      ¬ clampedHigh defaultConfig 100 ≤ 99 / 100 := by
  refine ⟨by norm_num, ?_, ?_⟩ <;>
    norm_num [clampedHigh, clampedLow, nyquist, defaultConfig]

/-- C2 (amended): for every positive sample rate and every configuration, the
clamped normalized cutoffs satisfy `0.001 ≤ low ≤ 0.99` and
`low + 0.01 ≤ high ≤ max 0.99 (low + 0.01)`, and `low < high` strictly; the
upper bound `high ≤ 0.99` of the original claim holds except when the clamped
low exceeds `0.98`, where `high = low + 0.01` may reach up to `1.0`. -/
theorem bandpass_clamp_bounds (cfg : AudioPreprocessingConfig) (sampleRate : ℚ)
    (_hsr : 0 < sampleRate) :
    1 / 1000 ≤ clampedLow cfg sampleRate ∧ clampedLow cfg sampleRate ≤ 99 / 100 ∧
    clampedLow cfg sampleRate + 1 / 100 ≤ clampedHigh cfg sampleRate ∧
    clampedHigh cfg sampleRate ≤ max (99 / 100) (clampedLow cfg sampleRate + 1 / 100) ∧
    clampedLow cfg sampleRate < clampedHigh cfg sampleRate := by
  refine ⟨le_max_left _ _, ?_, le_max_left _ _, ?_, ?_⟩
  · exact max_le (by norm_num) (min_le_right _ _)
  · exact max_le (le_max_right _ _) (le_trans (min_le_right _ _) (le_max_left _ _))
  · exact lt_of_lt_of_le (by linarith) (le_max_left _ _)

/-- C2, witness for the amended claim at the canonical 16 kHz rate. -/
theorem bandpass_clamp_bounds_witness :
    1 / 1000 ≤ clampedLow defaultConfig 16000 ∧
    clampedLow defaultConfig 16000 ≤ 99 / 100 ∧
    clampedLow defaultConfig 16000 + 1 / 100 ≤ clampedHigh defaultConfig 16000 ∧
    clampedHigh defaultConfig 16000 ≤
      max (99 / 100) (clampedLow defaultConfig 16000 + 1 / 100) ∧
    clampedLow defaultConfig 16000 < clampedHigh defaultConfig 16000 :=
  bandpass_clamp_bounds defaultConfig 16000 (by norm_num)

/-- C4: splicing two segments with `crossfade_samples = 160` shortens the
concatenation by exactly 160 samples when both segments have at least 160
samples, and concatenates exactly when either is shorter. -/
theorem crossfade_splice_length (a b : List ℚ) :
    (160 ≤ a.length ∧ 160 ≤ b.length →
      (crossfadeSegments [a, b] 160).length = a.length + b.length - 160) ∧
    (a.length < 160 ∨ b.length < 160 →
      (crossfadeSegments [a, b] 160).length = a.length + b.length) := by
  constructor
  · rintro ⟨ha, hb⟩
    exact crossfadePair_length_of_le 160 a b ha hb
  · intro h
    exact crossfadePair_length_of_short 160 a b h

/-- C4, witness: two 160-sample segments splice to 160 + 160 − 160 = 160. -/
theorem crossfade_splice_length_witness :
    (crossfadeSegments [List.replicate 160 (1 : ℚ), List.replicate 160 (2 : ℚ)] 160).length
      = 160 := by
  have h := (crossfade_splice_length (List.replicate 160 (1 : ℚ))
    (List.replicate 160 (2 : ℚ))).1 ⟨by simp, by simp⟩
  simpa using h

/-- C6: pre-emphasis preserves length, keeps the first sample, and maps every
later sample `n` to `input[n] - coef * input[n-1]`. -/
theorem pre_emphasis_spec (coef : ℚ) (w : List ℚ) (hw : w ≠ []) :
    (applyPreEmphasis coef w).length = w.length ∧
    (applyPreEmphasis coef w).getD 0 0 = w.getD 0 0 ∧
    ∀ n, 1 ≤ n → n < w.length →
      (applyPreEmphasis coef w).getD n 0 = w.getD n 0 - coef * w.getD (n - 1) 0 := by
  match w with
  | [] => exact absurd rfl hw
  | x :: xs =>
    refine ⟨by simp [applyPreEmphasis], rfl, ?_⟩
    intro n h1 h2
    obtain ⟨m, rfl⟩ : ∃ m, n = m + 1 := ⟨n - 1, by omega⟩
    have hm : m < xs.length := by
      simp only [List.length_cons] at h2
      omega
    have hz : m < (List.zipWith (fun cur prev => cur - coef * prev) xs (x :: xs)).length := by
      simp; omega
    show (x :: List.zipWith (fun cur prev => cur - coef * prev) xs (x :: xs)).getD (m + 1) 0 = _
    have hmx : m < (x :: xs).length := by
      simp only [List.length_cons]
      omega
    simp only [Nat.add_sub_cancel, List.getD_cons_succ]
    rw [List.getD_eq_getElem _ _ hz, List.getElem_zipWith, List.getD_eq_getElem _ _ hm,
      List.getD_eq_getElem _ _ hmx]

/-- C6, witness at `[1, 2, 4]` with the default coefficient. -/
theorem pre_emphasis_witness :
    (applyPreEmphasis (97 / 100 : ℚ) [1, 2, 4]).getD 2 0 = 4 - 97 / 100 * 2 := by
  have h := (pre_emphasis_spec (97 / 100 : ℚ) [1, 2, 4] (by simp)).2.2 2 (by norm_num)
    (by norm_num)
  simpa using h

theorem zipWith_add_map_mul (v : List ℚ) (m : ℚ) :
    List.zipWith (· + ·) (v.map (fun x => x * m)) v = v.map (fun x => x * (m + 1)) := by
  induction v with
  | nil => rfl
  | cons y ys ih =>
    simp only [List.map_cons, List.zipWith_cons_cons, ih, List.cons.injEq, and_true]
    ring

theorem foldl_zip_replicate (v : List ℚ) (k : ℕ) (m : ℚ) :
    (List.replicate k v).foldl (List.zipWith (· + ·)) (v.map (fun x => x * m)) =
      v.map (fun x => x * (m + k)) := by
  induction k generalizing m with
  | zero => simp
  | succ k ih =>
    rw [List.replicate_succ, List.foldl_cons, zipWith_add_map_mul, ih]
    congr 1
    funext x
    push_cast
    ring

theorem foldl_zip_replicate1 (v : List ℚ) (k : ℕ) :
    (List.replicate k v).foldl (List.zipWith (· + ·)) v =
      v.map (fun x => x * ((k : ℚ) + 1)) := by
  have h := foldl_zip_replicate v k 1
  have hv : v.map (fun x : ℚ => x * 1) = v := by simp
  rw [hv] at h
  rw [h]
  congr 1
  funext x
  ring

theorem map_mul_div_cancel (c : ℚ) (hc : c ≠ 0) (v : List ℚ) :
    (v.map (fun x => x * c)).map (fun x => x / c) = v := by
  rw [List.map_map]
  induction v with
  | nil => rfl
  | cons y ys ih =>
    simp only [List.map_cons, Function.comp_apply, ih, List.cons.injEq, and_true]
    field_simp

/-- C8: the centroid of `n ≥ 1` copies of a vector is exactly that vector; in
particular the centroid of a one-vector list is that vector. -/
theorem centroid_replicate (n : ℕ) (v : List ℚ) (hn : 1 ≤ n) :
    computeCentroid (List.replicate n v) = v := by
  obtain ⟨k, rfl⟩ : ∃ k, n = k + 1 := ⟨n - 1, by omega⟩
  unfold computeCentroid
  have hstep : vecSum (List.replicate (k + 1) v) = v.map (fun x => x * ((k : ℚ) + 1)) := by
    rw [List.replicate_succ]
    exact foldl_zip_replicate1 v k
  rw [hstep, List.length_replicate]
  have hc : ((k : ℚ) + 1) ≠ 0 := by positivity
  have hcast : (((k + 1 : ℕ)) : ℚ) = (k : ℚ) + 1 := by push_cast; ring
  rw [hcast]
  exact map_mul_div_cancel _ hc v

/-- C8, witness at three copies of `[2, -5/2]`. -/
theorem centroid_replicate_witness :
    computeCentroid (List.replicate 3 [(2 : ℚ), -5/2]) = [2, -5/2] :=
  centroid_replicate 3 [(2 : ℚ), -5/2] (by norm_num)

theorem targetAmplitude_pos (db : ℝ) : 0 < targetAmplitude db :=
  Real.rpow_pos_of_pos (by norm_num) _

theorem peakAmplitude_nonneg (w : List ℝ) : 0 ≤ peakAmplitude w := by
  unfold peakAmplitude
  induction w with
  | nil => simp
  | cons y ys ih =>
    simp only [List.map_cons, List.foldr_cons]
    exact le_trans ih (le_max_right _ _)

theorem peakAmplitude_map_mul (w : List ℝ) (c : ℝ) (hc : 0 ≤ c) :
    peakAmplitude (w.map (fun x => x * c)) = peakAmplitude w * c := by
  unfold peakAmplitude
  rw [List.map_map]
  induction w with
  | nil => simp
  | cons y ys ih =>
    simp only [List.map_cons, List.foldr_cons, Function.comp_apply]
    rw [ih, max_mul_of_nonneg _ _ hc, abs_mul, abs_of_nonneg hc]

/-- C5: amplitude normalization scales every sample by
`10^(target_db/20) / peak` when the peak is positive, bringing the output peak
to exactly `10^(target_db/20)`, and returns the waveform unchanged (raising no
error) when the peak is zero. -/
theorem normalize_amplitude_spec (db : ℝ) (w : List ℝ) :
    (0 < peakAmplitude w →
      normalizeAmplitude db w = w.map (fun x => x * (targetAmplitude db / peakAmplitude w)) ∧
      peakAmplitude (normalizeAmplitude db w) = targetAmplitude db) ∧
    (peakAmplitude w = 0 → normalizeAmplitude db w = w) := by
  constructor
  · intro hp
    have he : normalizeAmplitude db w =
        w.map (fun x => x * (targetAmplitude db / peakAmplitude w)) := by
      unfold normalizeAmplitude
      rw [if_pos hp]
    refine ⟨he, ?_⟩
    rw [he, peakAmplitude_map_mul _ _ (div_nonneg (targetAmplitude_pos db).le hp.le)]
    rw [mul_comm, div_mul_cancel₀ _ (ne_of_gt hp)]
  · intro hp
    unfold normalizeAmplitude
    rw [if_neg (by rw [hp]; exact lt_irrefl 0)]

/-- C5, witness at `[3, -4]` (peak 4) with the default target of −3 dB. -/
theorem normalize_amplitude_witness :
    peakAmplitude (normalizeAmplitude (-3) [(3 : ℝ), -4]) = targetAmplitude (-3) := by
  have hp : (0 : ℝ) < peakAmplitude [(3 : ℝ), -4] := by
    unfold peakAmplitude
    simp only [List.map_cons, List.map_nil, List.foldr_cons, List.foldr_nil]
    rw [abs_of_nonneg (by norm_num : (0:ℝ) ≤ 3), abs_of_nonpos (by norm_num : (-4:ℝ) ≤ 0)]
    norm_num [max_def]
  exact ((normalize_amplitude_spec (-3) [(3 : ℝ), -4]).1 hp).2

theorem dotList_self_nonneg (v : List ℝ) : 0 ≤ dotList v v := by
  unfold dotList
  induction v with
  | nil => simp
  | cons y ys ih =>
    simp only [List.zipWith_cons_cons, List.sum_cons]
    exact add_nonneg (mul_self_nonneg y) ih

theorem dotList_self_pos (v : List ℝ) (x : ℝ) (hx : x ∈ v) (hx0 : x ≠ 0) :
    0 < dotList v v := by
  induction v with
  | nil => cases hx
  | cons y ys ih =>
    have hd : dotList (y :: ys) (y :: ys) = y * y + dotList ys ys := by
      unfold dotList
      simp
    rw [hd]
    rcases List.mem_cons.mp hx with rfl | hmem
    · have h1 : 0 < x * x := mul_self_pos.mpr hx0
      have h2 := dotList_self_nonneg ys
      linarith
    · have h1 := ih hmem
      have h2 := mul_self_nonneg y
      linarith

/-- C7: `compute_similarity` returns exactly 0 when either norm is zero, 1 on
any non-zero vector paired with itself, and in particular 0 on
`[1,0] ⋅ [0,1]` and 1 on `[1,0] ⋅ [1,0]`. -/
theorem compute_similarity_spec :
    (∀ a b : List ℝ, normList a = 0 ∨ normList b = 0 → computeSimilarity a b = 0) ∧
    (∀ (v : List ℝ) (x : ℝ), x ∈ v → x ≠ 0 → computeSimilarity v v = 1) ∧
    computeSimilarity [1, 0] [0, 1] = 0 ∧
    computeSimilarity [1, 0] [1, 0] = 1 := by
  have hnorm10 : normList [(1 : ℝ), 0] = 1 := by
    unfold normList dotList
    norm_num
  refine ⟨?_, ?_, ?_, ?_⟩
  · intro a b h
    unfold computeSimilarity
    rw [if_pos h]
  · intro v x hx hx0
    have hd : 0 < dotList v v := dotList_self_pos v x hx hx0
    have hn : normList v ≠ 0 := by
      unfold normList
      exact ne_of_gt (Real.sqrt_pos.mpr hd)
    unfold computeSimilarity
    rw [if_neg (by tauto)]
    rw [show normList v * normList v = dotList v v from by
      unfold normList
      exact Real.mul_self_sqrt hd.le]
    exact div_self (ne_of_gt hd)
  · unfold computeSimilarity
    rw [if_neg (by rw [hnorm10, show normList [(0:ℝ), 1] = 1 from by unfold normList dotList; norm_num]; norm_num)]
    unfold dotList
    norm_num
  · unfold computeSimilarity
    rw [if_neg (by rw [hnorm10]; norm_num)]
    rw [hnorm10]
    unfold dotList
    norm_num

/-- C7, witness: a zero vector against a non-zero one, and a non-zero vector
against itself. -/
theorem compute_similarity_witness :
    computeSimilarity [0, 0] [5, 12] = 0 ∧ computeSimilarity [3, 4] [3, 4] = 1 := by
  constructor
  · refine compute_similarity_spec.1 [0, 0] [5, 12] (Or.inl ?_)
    unfold normList dotList
    norm_num
  · exact compute_similarity_spec.2.1 [3, 4] 3 (by simp) (by norm_num)

/-- C9: running the pipeline on an empty waveform fails with the validation
error and produces no output, for any resampler that maps an empty waveform to
an empty waveform (as the bandlimited resampler does) and any filter: the
zero-phase filtering stage rejects the empty signal before any output is
built. -/
theorem process_empty_validation (bp : List ℚ → List ℚ) (resample : List ℚ → ℕ → List ℚ)
    (cfg : AudioPreprocessingConfig) (sampleRate : ℕ)
    (hres : resample [] sampleRate = []) :
    process bp resample cfg [] sampleRate = .error .validation := by
  unfold process
  by_cases h : sampleRate ≠ 16000 <;>
    simp [h, hres, filtfiltPadlen]

/-- C9, witness with the identity filter and resampler at 8 kHz. -/
theorem process_empty_validation_witness :
    process id (fun w _ => w) defaultConfig [] 8000 = .error .validation :=
  process_empty_validation id (fun w _ => w) defaultConfig 8000 rfl

theorem applyVad_of_no_segments (w : List ℚ) (rate : ℕ) (cfg : AudioPreprocessingConfig)
    (h : vadScanSegments w rate cfg = []) :
    applyVad w rate cfg = (w, ⟨0, 0, true⟩) := by
  unfold applyVad
  rw [if_pos h]

theorem scanRuns_all_false (l : List Bool) (h : ∀ b ∈ l, b = false) :
    ∀ minF padF total i s, scanRuns minF padF total l i false s [] = [] := by
  induction l with
  | nil =>
    intro minF padF total i s
    simp [scanRuns]
  | cons b rest ih =>
    intro minF padF total i s
    have hb : b = false := h b (List.mem_cons_self b rest)
    subst hb
    show scanRuns minF padF total (false :: rest) i false s [] = []
    unfold scanRuns
    simp only [Bool.false_and, Bool.not_false, Bool.and_false, if_false]
    exact ih (fun x hx => h x (List.mem_cons_of_mem _ hx)) minF padF total (i + 1) s

theorem getD_of_all_zero (l : List ℝ) (h : ∀ x ∈ l, x = 0) (i : ℕ) : l.getD i 0 = 0 := by
  rcases lt_or_ge i l.length with hi | hi
  · rw [List.getD_eq_getElem _ _ hi]
    exact h _ (List.getElem_mem hi)
  · exact List.getD_eq_default _ _ hi

theorem foldr_max_of_all_zero (l : List ℝ) (h : ∀ x ∈ l, x = 0) :
    l.foldr max 0 = 0 := by
  induction l with
  | nil => rfl
  | cons y ys ih =>
    simp only [List.foldr_cons]
    rw [h y (List.mem_cons_self y ys), ih (fun x hx => h x (List.mem_cons_of_mem _ hx))]
    simp

theorem vadMeanSqs_of_all_zero (w : List ℚ) (rate : ℕ) (cfg : AudioPreprocessingConfig)
    (hw : ∀ x ∈ w, x = 0) : ∀ q ∈ vadMeanSqs w rate cfg, q = 0 := by
  intro q hq
  unfold vadMeanSqs at hq
  obtain ⟨i, _, rfl⟩ := List.mem_map.mp hq
  unfold frameMeanSq
  split
  · rw [List.sum_eq_zero, zero_div]
    intro y hy
    obtain ⟨x, hx, rfl⟩ := List.mem_map.mp hy
    have hx' : x ∈ w := List.drop_subset _ _ (List.take_subset _ _ hx)
    rw [hw x hx']
    ring
  · rfl

theorem vadSpeechFlags_of_all_zero (w : List ℚ) (rate : ℕ) (cfg : AudioPreprocessingConfig)
    (hthr : 0 ≤ cfg.vadEnergyThreshold) (hw : ∀ x ∈ w, x = 0) :
    ∀ b ∈ vadSpeechFlags w rate cfg, b = false := by
  have hE : ∀ e ∈ vadEnergies w rate cfg, e = 0 := by
    intro e he
    unfold vadEnergies at he
    obtain ⟨q, hq, rfl⟩ := List.mem_map.mp he
    rw [vadMeanSqs_of_all_zero w rate cfg hw q hq]
    simp
  have hN : ∀ e ∈ vadNormalized w rate cfg, e = 0 := by
    intro e he
    unfold vadNormalized at he
    obtain ⟨e0, he0, rfl⟩ := List.mem_map.mp he
    rw [hE e0 he0, zero_div]
  have hS : ∀ e ∈ smooth3 (vadNormalized w rate cfg), e = 0 := by
    intro e he
    unfold smooth3 at he
    obtain ⟨i, _, rfl⟩ := List.mem_map.mp he
    rw [getD_of_all_zero _ hN, getD_of_all_zero _ hN, getD_of_all_zero _ hN]
    norm_num
  intro b hb
  unfold vadSpeechFlags at hb
  obtain ⟨e, he, rfl⟩ := List.mem_map.mp hb
  rw [hS e he, if_neg]
  intro hlt
  have : (0 : ℝ) ≤ ((cfg.vadEnergyThreshold : ℚ) : ℝ) := by exact_mod_cast hthr
  linarith

/-- C1: whenever the VAD scan finds no surviving speech run — in particular on
any all-zero waveform (under a nonnegative energy threshold, as configured by
default) — `_apply_vad` fails open, returning the input waveform unchanged
with `speech_segments = 0`, `speech_ratio = 0`, `kept_original = true`, and no
error. -/
theorem vad_fail_open (w : List ℚ) (rate : ℕ) (cfg : AudioPreprocessingConfig)
    (h : (0 ≤ cfg.vadEnergyThreshold ∧ ∀ x ∈ w, x = 0) ∨
      vadScanSegments w rate cfg = []) :
    applyVad w rate cfg = (w, ⟨0, 0, true⟩) := by
  rcases h with ⟨hthr, hw⟩ | h
  · apply applyVad_of_no_segments
    unfold vadScanSegments
    exact scanRuns_all_false _ (vadSpeechFlags_of_all_zero w rate cfg hthr hw) _ _ _ _ _
  · exact applyVad_of_no_segments _ _ _ h

/-- C1, witness on the all-zero waveform `[0]` with the default
configuration. -/
theorem vad_fail_open_witness :
    applyVad [0] 16000 defaultConfig = ([0], ⟨0, 0, true⟩) :=
  vad_fail_open [0] 16000 defaultConfig
    (Or.inl ⟨by norm_num [defaultConfig], by simp⟩)

theorem vadMinSpeechFrames_default : vadMinSpeechFrames defaultConfig = 16 := by
  have h : Int.floor ((defaultConfig.vadMinSpeechMs : ℚ) / (defaultConfig.vadFrameMs : ℚ) * 2)
      = 16 := by
    norm_num [defaultConfig]
  rw [vadMinSpeechFrames, h]
  rfl

theorem vadPaddingFrames_default : vadPaddingFrames defaultConfig = 6 := by
  have h : Int.floor ((defaultConfig.vadPaddingMs : ℚ) / (defaultConfig.vadFrameMs : ℚ) * 2)
      = 6 := by
    norm_num [defaultConfig]
  rw [vadPaddingFrames, h]
  rfl

/-- C10: on any input shorter than one frame (480 samples at 16 kHz with the
default 30 ms frames), the VAD computes exactly one frame whose energy is left
at zero by the `end <= len` guard, hence detects no speech and returns the
input unchanged with `speech_segments = 0, speech_ratio = 0, kept_original =
true`, regardless of the content or amplitude of the samples. -/
theorem vad_short_input (w : List ℚ) (h : w.length < 480) :
    vadNumFrames w.length (vadFrameSize 16000 defaultConfig) (vadHopSize 16000 defaultConfig)
      = 1 ∧
    vadMeanSqs w 16000 defaultConfig = [0] ∧
    applyVad w 16000 defaultConfig = (w, ⟨0, 0, true⟩) := by
  have hf : vadFrameSize 16000 defaultConfig = 480 := rfl
  have hh : vadHopSize 16000 defaultConfig = 240 := rfl
  have hcast : (w.length : ℤ) < 480 := by exact_mod_cast h
  have hnum : vadNumFrames w.length 480 240 = 1 := by
    unfold vadNumFrames
    omega
  have hms : vadMeanSqs w 16000 defaultConfig = [0] := by
    unfold vadMeanSqs
    rw [hf, hh, hnum]
    have h0 : frameMeanSq w 480 240 0 = 0 := by
      unfold frameMeanSq
      rw [if_neg (by omega)]
    rw [show List.range 1 = [0] from rfl, List.map_cons, List.map_nil, h0]
  have hE : vadEnergies w 16000 defaultConfig = [0] := by
    unfold vadEnergies
    rw [hms]
    simp
  have hMax : vadMaxEnergy w 16000 defaultConfig = 0 := by
    unfold vadMaxEnergy
    rw [hE]
    simp
  have hDiv : vadNormDivisor w 16000 defaultConfig = 1 := by
    unfold vadNormDivisor
    rw [hMax]
    norm_num
  have hN : vadNormalized w 16000 defaultConfig = [0] := by
    unfold vadNormalized
    rw [hE, hDiv]
    simp
  have hS : smooth3 [(0 : ℝ)] = [0] := by
    unfold smooth3
    simp
  have hFlags : vadSpeechFlags w 16000 defaultConfig = [false] := by
    unfold vadSpeechFlags
    rw [hN, hS]
    simp only [List.map_cons, List.map_nil]
    rw [if_neg (by norm_num [defaultConfig])]
  have hscan : vadScanSegments w 16000 defaultConfig = [] := by
    unfold vadScanSegments
    rw [hFlags, vadMinSpeechFrames_default, vadPaddingFrames_default]
    rfl
  exact ⟨hnum, hms, applyVad_of_no_segments _ _ _ hscan⟩

/-- C10, witness on the one-sample, full-scale waveform `[5]`. -/
theorem vad_short_input_witness :
    applyVad [5] 16000 defaultConfig = ([5], ⟨0, 0, true⟩) :=
  (vad_short_input [5] (by norm_num)).2.2

/-! ## The speech-ratio counterexample computation -/

theorem cexWave_length : cexWave.length = 1920 := by
  unfold cexWave
  simp only [List.length_append, List.length_replicate]

theorem cex_frameSize : vadFrameSize 16000 cexConfig = 480 := rfl

theorem cex_hop : vadHopSize 16000 cexConfig = 240 := rfl

theorem cex_numFrames : vadNumFrames cexWave.length 480 240 = 7 := by
  rw [cexWave_length]
  rfl

theorem cex_frame (i : ℕ) (hle : i * 240 + 480 ≤ 1920) :
    frameMeanSq cexWave 480 240 i =
      (((cexWave.drop (i * 240)).take 480).map (fun x => x * x)).sum / 480 := by
  unfold frameMeanSq
  rw [cexWave_length, if_pos hle]
  norm_num

theorem cex_meanSqs : vadMeanSqs cexWave 16000 cexConfig =
    [1, 10001/20000, 1/20000, 0, 1/20000, 10001/20000, 1] := by
  unfold vadMeanSqs
  rw [cex_frameSize, cex_hop, cex_numFrames,
    show List.range 7 = [0, 1, 2, 3, 4, 5, 6] from rfl]
  simp only [List.map_cons, List.map_nil]
  rw [cex_frame 0 (by norm_num), cex_frame 1 (by norm_num), cex_frame 2 (by norm_num),
    cex_frame 3 (by norm_num), cex_frame 4 (by norm_num), cex_frame 5 (by norm_num),
    cex_frame 6 (by norm_num)]
  unfold cexWave
  simp only [List.drop_append_eq_append_drop, List.take_append_eq_append_take,
    List.drop_replicate, List.take_replicate, List.length_replicate,
    List.map_append, List.map_replicate, List.sum_append, List.sum_replicate,
    List.drop_zero]
  norm_num

theorem cex_energies : vadEnergies cexWave 16000 cexConfig =
    [1, Real.sqrt (10001/20000), Real.sqrt (1/20000), 0, Real.sqrt (1/20000),
      Real.sqrt (10001/20000), 1] := by
  unfold vadEnergies
  rw [cex_meanSqs]
  simp only [List.map_cons, List.map_nil, List.cons.injEq]
  norm_num

theorem le_foldr_max (l : List ℝ) (x : ℝ) (hx : x ∈ l) : x ≤ l.foldr max 0 := by
  induction l with
  | nil => cases hx
  | cons y ys ih =>
    rcases List.mem_cons.mp hx with rfl | hmem
    · exact le_max_left _ _
    · exact le_trans (ih hmem) (le_max_right _ _)

theorem foldr_max_le (l : List ℝ) (c : ℝ) (h0 : 0 ≤ c) (h : ∀ x ∈ l, x ≤ c) :
    l.foldr max 0 ≤ c := by
  induction l with
  | nil => exact h0
  | cons y ys ih =>
    exact max_le (h y (List.mem_cons_self y ys))
      (ih (fun x hx => h x (List.mem_cons_of_mem _ hx)))

theorem cex_s1_nonneg : (0 : ℝ) ≤ Real.sqrt (10001/20000) := Real.sqrt_nonneg _

theorem cex_s1_le_one : Real.sqrt (10001/20000) ≤ 1 := by
  rw [show (1 : ℝ) = Real.sqrt 1 from (Real.sqrt_one).symm]
  exact Real.sqrt_le_sqrt (by norm_num)

theorem cex_s1_gt : (3 : ℝ)/100 < Real.sqrt (10001/20000) := by
  have h := Real.lt_sqrt (x := (3 : ℝ)/100) (y := 10001/20000) (by norm_num)
  exact h.mpr (by norm_num)

theorem cex_s2_nonneg : (0 : ℝ) ≤ Real.sqrt (1/20000) := Real.sqrt_nonneg _

theorem cex_s2_le : Real.sqrt (1/20000) ≤ 3/200 := by
  rw [show (3 : ℝ)/200 = Real.sqrt ((3/200) ^ 2) from
    (Real.sqrt_sq (by norm_num)).symm]
  exact Real.sqrt_le_sqrt (by norm_num)

theorem cex_s2_le_one : Real.sqrt (1/20000) ≤ 1 := le_trans cex_s2_le (by norm_num)

theorem cex_maxEnergy : vadMaxEnergy cexWave 16000 cexConfig = 1 := by
  unfold vadMaxEnergy
  rw [cex_energies]
  refine le_antisymm ?_ ?_
  · refine foldr_max_le _ 1 (by norm_num) ?_
    intro x hx
    simp only [List.mem_cons, List.not_mem_nil, or_false] at hx
    rcases hx with rfl | rfl | rfl | rfl | rfl | rfl | rfl
    · rfl
    · exact cex_s1_le_one
    · exact cex_s2_le_one
    · norm_num
    · exact cex_s2_le_one
    · exact cex_s1_le_one
    · rfl
  · exact le_foldr_max _ 1 (by simp)

theorem cex_divisor : vadNormDivisor cexWave 16000 cexConfig = 1 := by
  unfold vadNormDivisor
  rw [cex_maxEnergy]
  norm_num

theorem cex_normalized : vadNormalized cexWave 16000 cexConfig =
    [1, Real.sqrt (10001/20000), Real.sqrt (1/20000), 0, Real.sqrt (1/20000),
      Real.sqrt (10001/20000), 1] := by
  unfold vadNormalized
  rw [cex_energies, cex_divisor]
  simp only [div_one, List.map_cons, List.map_nil]

theorem smooth3_seven (a b c d e f g : ℝ) :
    smooth3 [a, b, c, d, e, f, g] =
      [(a + a + b)/3, (a + b + c)/3, (b + c + d)/3, (c + d + e)/3, (d + e + f)/3,
       (e + f + g)/3, (f + g + g)/3] := rfl

theorem cex_flags : vadSpeechFlags cexWave 16000 cexConfig =
    [true, true, true, false, true, true, true] := by
  have hthr : ((cexConfig.vadEnergyThreshold : ℚ) : ℝ) = 1/100 := by
    norm_num [cexConfig, defaultConfig]
  have h1 := cex_s1_nonneg
  have h2 := cex_s1_gt
  have h3 := cex_s2_nonneg
  have h4 := cex_s2_le
  unfold vadSpeechFlags
  rw [cex_normalized, smooth3_seven]
  simp only [List.map_cons, List.map_nil]
  rw [hthr]
  rw [if_pos (by linarith), if_pos (by linarith), if_pos (by linarith),
    if_neg (by push_neg; linarith), if_pos (by linarith), if_pos (by linarith),
    if_pos (by linarith)]

theorem cex_minF : vadMinSpeechFrames cexConfig = 2 := by
  have h : Int.floor ((cexConfig.vadMinSpeechMs : ℚ) / (cexConfig.vadFrameMs : ℚ) * 2)
      = 2 := by
    norm_num [cexConfig, defaultConfig]
  rw [vadMinSpeechFrames, h]
  rfl

theorem cex_padF : vadPaddingFrames cexConfig = 0 := by
  have h : Int.floor ((cexConfig.vadPaddingMs : ℚ) / (cexConfig.vadFrameMs : ℚ) * 2)
      = 0 := by
    norm_num [cexConfig, defaultConfig]
  rw [vadPaddingFrames, h]
  rfl

theorem cex_scan : vadScanSegments cexWave 16000 cexConfig = [(0, 3), (4, 7)] := by
  unfold vadScanSegments
  rw [cex_flags, cex_minF, cex_padF]
  rfl

theorem cex_merged : vadMergedSegments cexWave 16000 cexConfig = [(0, 3), (4, 7)] := by
  unfold vadMergedSegments
  rw [cex_scan]
  rfl

theorem cex_speechAudio : vadSpeechAudio cexWave 16000 cexConfig =
    [extractSegment cexWave 240 480 (0, 3), extractSegment cexWave 240 480 (4, 7)] := by
  unfold vadSpeechAudio
  rw [cex_merged, cex_hop, cex_frameSize]
  rfl

theorem cex_seg1_length : (extractSegment cexWave 240 480 (0, 3)).length = 1200 := by
  unfold extractSegment
  simp only [List.length_take, List.length_drop, cexWave_length]
  norm_num

theorem cex_seg2_length : (extractSegment cexWave 240 480 (4, 7)).length = 960 := by
  unfold extractSegment
  simp only [List.length_take, List.length_drop, cexWave_length]
  norm_num

theorem crossfadeSegments_pair (a b : List ℚ) (cf : ℕ) :
    crossfadeSegments [a, b] cf = crossfadePair cf a b := rfl

theorem cex_combined_length : (vadCombined cexWave 16000 cexConfig).length = 2000 := by
  unfold vadCombined
  rw [cex_speechAudio]
  rw [if_pos (by norm_num)]
  rw [crossfadeSegments_pair]
  rw [crossfadePair_length_of_le 160 _ _ (by rw [cex_seg1_length]; norm_num)
    (by rw [cex_seg2_length]; norm_num)]
  rw [cex_seg1_length, cex_seg2_length]

theorem cex_applyVad_stats :
    (applyVad cexWave 16000 cexConfig).2 = ⟨2, 521/500, false⟩ := by
  unfold applyVad
  rw [if_neg (by rw [cex_scan]; simp)]
  show (⟨(vadMergedSegments cexWave 16000 cexConfig).length,
    round3 (((vadCombined cexWave 16000 cexConfig).length : ℚ) / (cexWave.length : ℚ)),
    false⟩ : VadStats) = _
  rw [cex_merged, cex_combined_length, cexWave_length]
  simp only [VadStats.mk.injEq]
  norm_num [round3, round_eq]

/-- C3, counterexample: on `cexWave` under `cexConfig` the VAD extracts two
speech segments whose padded sample ranges overlap by 240 samples while the
crossfade removes only 160, so the spliced output has 2000 samples against
1920 input samples and the reported `speech_ratio` is `round(2000/1920, 3) =
1.042 > 1`. -/
theorem vad_speech_ratio_cex :
    1 ≤ (applyVad cexWave 16000 cexConfig).2.speechSegments ∧
      1 < (applyVad cexWave 16000 cexConfig).2.speechRat := by
  rw [cex_applyVad_stats]
  norm_num

/-- C3 (amended): the reported `speech_ratio` is always nonnegative, but it is
not bounded by 1: when several padded speech runs survive, adjacent extracted
sample ranges can overlap by up to `frame_size - hop_size` samples per
junction while the crossfade removes only 160, so the spliced output can
exceed the input length (see the counterexample, where the ratio is 1.042). -/
theorem vad_speech_ratio_nonneg (w : List ℚ) (rate : ℕ) (cfg : AudioPreprocessingConfig) :
    0 ≤ (applyVad w rate cfg).2.speechRat := by
  unfold applyVad
  split
  · exact le_rfl
  · show (0 : ℚ) ≤ round3 (((vadCombined w rate cfg).length : ℚ) / (w.length : ℚ))
    unfold round3
    have hx : (0 : ℚ) ≤ ((vadCombined w rate cfg).length : ℚ) / (w.length : ℚ) :=
      div_nonneg (Nat.cast_nonneg _) (Nat.cast_nonneg _)
    have hr : (0 : ℤ) ≤
        round ((((vadCombined w rate cfg).length : ℚ) / (w.length : ℚ)) * 1000) := by
      rw [round_eq]
      refine Int.le_floor.mpr ?_
      push_cast
      have hmul := mul_nonneg hx (by norm_num : (0 : ℚ) ≤ 1000)
      linarith
    have hcast : (0 : ℚ) ≤
        ((round ((((vadCombined w rate cfg).length : ℚ) / (w.length : ℚ)) * 1000) : ℤ) : ℚ) := by
      exact_mod_cast hr
    exact div_nonneg hcast (by norm_num)

end EmbeddingService
